import Mathlib

/-
Verification development for the drive-files-rotator content script
(src/content.js).  The script is shallowly embedded: the DOM is modelled as
the list of per-selector query results handed to the locator, URLs are plain
strings, chrome.storage.local is an association list, and the script's global
mutable variables (currentFileId, currentTarget, angle, flipX, initAttempts)
are fields of an explicit state record threaded through each event handler.
Pixel dimensions are modelled as natural numbers; angles as integers with
JavaScript's remainder operator modelled by Int.tmod (truncated remainder,
which agrees with JS % on integers).
-/

namespace GdrRotator

/-- Storage key namespace; STORAGE_PREFIX = "gdr:rotation:" in content.js. -/
def STORAGE_NS : String := "gdr:rotation:"

/-- Model of JavaScript String.prototype.includes via char lists. -/
def hasSub : List Char → List Char → Bool
  | [], pat => pat.isEmpty
  | c :: rest, pat => pat.isPrefixOf (c :: rest) || hasSub rest pat

/-- JS s.includes(pat). -/
def jsIncludes (s pat : String) : Bool := hasSub s.toList pat.toList

/-- isDriveUrl from content.js: url.includes("drive.google.com"). -/
def isDriveUrl (url : String) : Bool := jsIncludes url "drive.google.com"

/-- The literal part of the regex in getFileIdFromUrl. -/
def fileIdPat : List Char := ("/file/d/").toList

/-- Leftmost match of the regex capture in getFileIdFromUrl: scan for the
literal "/file/d/" followed by a nonempty run of non-slash characters. -/
def scanFileId : List Char → Option (List Char)
  | [] => none
  | c :: rest =>
    if fileIdPat.isPrefixOf (c :: rest) then
      let fid := ((c :: rest).drop 8).takeWhile (fun ch => ch != '/')
      if fid.isEmpty then scanFileId rest else some fid
    else scanFileId rest

/-- getFileIdFromUrl from content.js: the first capture of /\/file\/d\/([^/]+)/. -/
def getFileIdFromUrl (url : String) : Option String :=
  (scanFileId url.toList).map (fun cs => String.mk cs)

/-- The literal head of the regex in isDriveFilePreviewUrl. -/
def previewPat : List Char := ("https://drive.google.com/file/d/").toList

/-- The /(view|preview) tail of the regex in isDriveFilePreviewUrl. -/
def viewTail (l : List Char) : Bool :=
  ("/view").toList.isPrefixOf l || ("/preview").toList.isPrefixOf l

/-- One anchored attempt of the isDriveFilePreviewUrl regex at a position. -/
def previewAt (s : List Char) : Bool :=
  previewPat.isPrefixOf s &&
    (let after := s.drop 32
     let fid := after.takeWhile (fun ch => ch != '/')
     !fid.isEmpty && viewTail (after.drop fid.length))

/-- Unanchored regex search for isDriveFilePreviewUrl. -/
def scanPreview : List Char → Bool
  | [] => false
  | c :: rest => previewAt (c :: rest) || scanPreview rest

/-- isDriveFilePreviewUrl from content.js:
/https:\/\/drive\.google\.com\/file\/d\/[^/]+\/(view|preview)/.test(url). -/
def isDriveFilePreviewUrl (url : String) : Bool := scanPreview url.toList

/-- A DOM img/video element as the locator observes it.  The id field stands
for JavaScript object identity; getBoundingClientRect and getComputedStyle
results are snapshot into fields.  A src of "" models a missing src (falsy in
JS); natural/video dimensions of 0 model both a genuine 0 and the undefined
property of the other tag kind (both falsy in JS). -/
structure Elem where
  id : Nat
  tag : String
  rectWidth : Nat
  rectHeight : Nat
  naturalWidth : Nat
  naturalHeight : Nat
  videoWidth : Nat
  videoHeight : Nat
  display : String
  visibility : String
  hasOffsetParent : Bool
  position : String
  src : String
deriving DecidableEq, Repr

/-- The JS expression el.naturalWidth || el.videoWidth || rect.width. -/
def effectiveWidth (el : Elem) : Nat :=
  if el.naturalWidth ≠ 0 then el.naturalWidth
  else if el.videoWidth ≠ 0 then el.videoWidth
  else el.rectWidth

/-- The JS expression el.naturalHeight || el.videoHeight || rect.height. -/
def effectiveHeight (el : Elem) : Nat :=
  if el.naturalHeight ≠ 0 then el.naturalHeight
  else if el.videoHeight ≠ 0 then el.videoHeight
  else el.rectHeight

/-- The candidate filter predicate inside findLargestMediaElement
(content.js lines 89-115), with the checks in source order. -/
def passesFilter (el : Elem) : Bool :=
  if el.rectWidth < 30 ∨ el.rectHeight < 30 then false
  else if el.display = "none" ∨ el.visibility = "hidden" then false
  else if el.hasOffsetParent = false ∧ el.position ≠ "fixed" ∧ el.position ≠ "absolute" then
    false
  else if effectiveWidth el < 50 ∨ effectiveHeight el < 50 then false
  else if el.src ≠ "" ∧
      (jsIncludes el.src "icon" ∨ jsIncludes el.src "thumbnail" ∨
        jsIncludes el.src "favicon") then false
  else true

/-- Rendered area rect.width * rect.height used by the sort comparator. -/
def area (el : Elem) : Nat := el.rectWidth * el.rectHeight

/-- The selector loop of findLargestMediaElement: the per-selector
querySelectorAll results are consumed in order; the loop breaks on the first
selector whose filtered result is nonempty (content.js lines 85-122). -/
def firstSurvivors : List (List Elem) → List Elem
  | [] => []
  | elems :: rest =>
    let filtered := elems.filter passesFilter
    if filtered.isEmpty then firstSurvivors rest else filtered

/-- One step of the stable descending-area sort: JS Array.prototype.sort is
stable, and the comparator (rb.w*rb.h) - (ra.w*ra.h) puts a before b exactly
when area a ≥ area b. -/
def insertByArea (a : Elem) : List Elem → List Elem
  | [] => [a]
  | b :: l => if area b ≤ area a then a :: b :: l else b :: insertByArea a l

/-- Stable sort by descending rendered area (content.js lines 139-143). -/
def sortByAreaDesc : List Elem → List Elem
  | [] => []
  | a :: l => insertByArea a (sortByAreaDesc l)

/-- findLargestMediaElement from content.js, as a function of the
querySelectorAll results of the fixed selector list, in priority order.
Returns none for the JS return null, otherwise allCandidates[0] after the
descending stable sort. -/
def findLargestMediaElement (queries : List (List Elem)) : Option Elem :=
  let allCandidates := firstSurvivors queries
  if allCandidates.isEmpty then none
  else (sortByAreaDesc allCandidates).head?

/-- A persisted record as chrome.storage.local returns it: each field may be
absent (undefined/null in JS), modelled by Option. saveState always writes
both fields. -/
structure StoredRecord where
  angle : Option Int
  flipX : Option Bool
deriving DecidableEq, Repr

/-- chrome.storage.local modelled as an association list on string keys. -/
abbrev Storage := List (String × StoredRecord)

/-- Write a key, overwriting an existing binding. -/
def setKey : Storage → String → StoredRecord → Storage
  | [], k, v => [(k, v)]
  | (k', v') :: rest, k, v =>
    if k' = k then (k, v) :: rest else (k', v') :: setKey rest k v

/-- Read a key; none for a missing binding (obj[key] || null in the source). -/
def getKey : Storage → String → Option StoredRecord
  | [], _ => none
  | (k', v') :: rest, k => if k' = k then some v' else getKey rest k

/-- saveState from content.js (lines 40-44): a no-op when fileId is falsy,
and the .catch with an empty handler swallows a rejected write, modelled by
the ok flag (false = persistence layer rejected the write, nothing stored,
no error propagates because the function is total). -/
def saveState (ok : Bool) (s : Storage) (fileId : Option String) (r : StoredRecord) :
    Storage :=
  match fileId with
  | none => s
  | some fid => if ok then setKey s (STORAGE_NS ++ fid) r else s

/-- loadState from content.js (lines 46-54): resolves null when fileId is
falsy, otherwise obj[key] || null. -/
def loadState (s : Storage) (fileId : Option String) : Option StoredRecord :=
  match fileId with
  | none => none
  | some fid => getKey s (STORAGE_NS ++ fid)

/-- The formula of the rotate-right mutation, shared verbatim by the toolbar
click handler (line 215) and the Shift+R key handler (line 239):
(angle + 90) % 360, with JS % = truncated remainder. -/
def rotateRight (a : Int) : Int := Int.tmod (a + 90) 360

/-- The formula of the rotate-left mutation, shared verbatim by the toolbar
click handler (line 214) and the Shift+L key handler (line 242):
(angle - 90 + 360) % 360. -/
def rotateLeft (a : Int) : Int := Int.tmod (a - 90 + 360) 360

/-- The CSS transform string built by applyTransform:
rotate(angle deg) plus scaleX(-1) when flipped. -/
def transformOf (a : Int) (f : Bool) : String :=
  "rotate(" ++ toString a ++ "deg)" ++ (if f then " scaleX(-1)" else "")

/-- The script's global mutable state plus the externally visible effects the
claims mention (the transform applied to the current target, the toolbar and
its status text).  storeOk models whether chrome.storage accepts writes. -/
structure SysState where
  storage : Storage
  storeOk : Bool
  currentFileId : Option String
  angle : Int
  flipX : Bool
  currentTarget : Option Elem
  appliedTransform : Option String
  initAttempts : Nat
  toolbar : Bool
  status : String
deriving DecidableEq, Repr

/-- The globals as content.js declares them (lines 6-10); storage starts
empty on a fresh install. -/
def initialState (ok : Bool) : SysState :=
  { storage := []
    storeOk := ok
    currentFileId := none
    angle := 0
    flipX := false
    currentTarget := none
    appliedTransform := none
    initAttempts := 0
    toolbar := false
    status := "" }

/-- applyTransform from content.js (lines 151-163): a no-op without a target,
otherwise writes the rotation/flip transform onto the target.  The
objectFit/maxWidth/maxHeight writes touch only the target element and are
not needed by any claim, so only the transform string is recorded. -/
def applyTransform (st : SysState) : SysState :=
  if st.currentTarget.isSome then
    { st with appliedTransform := some (transformOf st.angle st.flipX) }
  else st

/-- setTarget from content.js (lines 165-169): returns immediately on a
falsy argument, otherwise installs the element and re-applies the transform. -/
def setTarget (el : Option Elem) (st : SysState) : SysState :=
  match el with
  | none => st
  | some e => applyTransform { st with currentTarget := some e }

/-- updateToolbarStatus from content.js (lines 171-179): writes the status
text when the toolbar node exists, otherwise does nothing. -/
def updateToolbarStatus (msg : String) (st : SysState) : SysState :=
  if st.toolbar then { st with status := msg } else st

/-- JS String.prototype.toLowerCase restricted to the ASCII keys the handler
compares against. -/
def jsToLower (s : String) : String := String.mk (s.toList.map Char.toLower)

/-- The shared tail of both mutation handlers: applyTransform() followed by
saveState(currentFileId, ...) with the current angle/flipX pair. -/
def applyAndSave (st : SysState) : SysState :=
  let st1 := applyTransform st
  { st1 with
    storage := saveState st1.storeOk st1.storage st1.currentFileId
      ⟨some st1.angle, some st1.flipX⟩ }

/-- The toolbar click handler (content.js lines 210-223): action is the
data-action attribute of the closest button, none when the click hit no
button.  The source tests the four actions with independent ifs and then
unconditionally re-applies and saves. -/
def toolbarClick (action : Option String) (st : SysState) : SysState :=
  match action with
  | none => st
  | some a =>
    let st1 := if a = "left" then { st with angle := rotateLeft st.angle } else st
    let st2 := if a = "right" then { st1 with angle := rotateRight st1.angle } else st1
    let st3 := if a = "flip" then { st2 with flipX := !st2.flipX } else st2
    let st4 := if a = "reset" then { st3 with angle := 0, flipX := false } else st3
    applyAndSave st4

/-- The global keydown handler (content.js lines 226-255): typing is the
text-input-focus test, shift is e.shiftKey, key is e.key.  Unmatched keys
return before the apply/save tail. -/
def keydownStep (typing shift : Bool) (key : String) (st : SysState) : SysState :=
  if typing then st
  else if !shift then st
  else if jsToLower key = "r" then applyAndSave { st with angle := rotateRight st.angle }
  else if jsToLower key = "l" then applyAndSave { st with angle := rotateLeft st.angle }
  else if key = "0" then applyAndSave { st with angle := 0, flipX := false }
  else if jsToLower key = "f" then applyAndSave { st with flipX := !st.flipX }
  else st

/-- ensureToolbar from content.js (lines 181-256): idempotent creation; the
initial status text depends on isDriveFilePreviewUrl.  The click/key
listeners it installs are modelled by toolbarClick/keydownStep. -/
def ensureToolbar (url : String) (st : SysState) : SysState :=
  if st.toolbar then st
  else
    { st with
      toolbar := true
      status :=
        if isDriveFilePreviewUrl url then "Looking for media..."
        else "Navigate to file preview" }

/-- loadRotationState from content.js (lines 258-271): early return when no
file context; otherwise angle := saved?.angle ?? 0 and
flipX := saved?.flipX ?? false, then re-apply if a target exists. -/
def loadRotationState (st : SysState) : SysState :=
  match st.currentFileId with
  | none => st
  | some _ =>
    let saved := loadState st.storage st.currentFileId
    let st1 :=
      { st with
        angle := (saved.bind (fun r => r.angle)).getD 0
        flipX := (saved.bind (fun r => r.flipX)).getD false }
    if st1.currentTarget.isSome then applyTransform st1 else st1

/-- teardown from content.js (lines 273-277): clears the target, keeps the
toolbar. -/
def teardown (st : SysState) : SysState := { st with currentTarget := none }

/-- The body of the watchUrlChanges tick when the address changed
(content.js lines 284-298): recompute the file id with the "general"
fallback, reload state when it differs, and reset the attempt counter. -/
def urlChangeStep (url : String) (st : SysState) : SysState :=
  let newFileId := (getFileIdFromUrl url).getD "general"
  let st1 :=
    if some newFileId ≠ st.currentFileId then
      loadRotationState { st with currentFileId := some newFileId }
    else st
  { st1 with initAttempts := 0 }

/-- The synchronous prefix of initOnDrive (content.js lines 305-313): set the
file context, ensure the toolbar, load saved state.  The locate cycle it
starts is modelled by assignTargetStep invocations. -/
def initOnDrive (url : String) (st : SysState) : SysState :=
  let st1 := { st with currentFileId := some ((getFileIdFromUrl url).getD "general") }
  let st2 := ensureToolbar url st1
  loadRotationState st2

/-- One invocation of assignTarget (content.js lines 316-333), as a function
of the current querySelectorAll results.  The returned Bool records whether
setTimeout(assignTarget, 1000) was called, i.e. whether a timer retry was
scheduled. -/
def assignTargetStep (dom : List (List Elem)) (st : SysState) : SysState × Bool :=
  let st1 := { st with initAttempts := st.initAttempts + 1 }
  match findLargestMediaElement dom with
  | some e =>
    if some e ≠ st1.currentTarget then
      (updateToolbarStatus "Media found - Ready to rotate!" (setTarget (some e) st1),
        false)
    else (st1, false)
  | none =>
    if st1.initAttempts ≤ 3 then
      (updateToolbarStatus
        ("Searching for media... (" ++ toString st1.initAttempts ++ ")") st1, true)
    else
      (updateToolbarStatus "No media found - click on image/video" st1, false)

/-- The external events that drive the script: toolbar clicks, keydowns,
detected URL changes, the initOnDrive entry, locate-cycle invocations
(whether from the initial call, a scheduled timer, a mutation or a resize),
and teardown. -/
inductive Ev where
  | click (action : Option String)
  | key (typing shift : Bool) (k : String)
  | nav (url : String)
  | start (url : String)
  | locate (dom : List (List Elem))
  | teardown
deriving DecidableEq, Repr

/-- Dispatch one event to its handler. -/
def step (st : SysState) : Ev → SysState
  | .click a => toolbarClick a st
  | .key t s k => keydownStep t s k st
  | .nav url => urlChangeStep url st
  | .start url => initOnDrive url st
  | .locate dom => (assignTargetStep dom st).1
  | .teardown => teardown st

/-- Run a sequence of events from a state. -/
def run (st : SysState) (evs : List Ev) : SysState := evs.foldl step st

/-- The set the spec's angle invariant names. -/
def ValidAngle (a : Int) : Prop := a = 0 ∨ a = 90 ∨ a = 180 ∨ a = 270

instance (a : Int) : Decidable (ValidAngle a) := by
  unfold ValidAngle; infer_instance

/-- Applying rotate-right n times, via the shared mutation formula. -/
def iterRight : Nat → Int → Int
  | 0, a => a
  | n + 1, a => rotateRight (iterRight n a)

/-- Applying rotate-left n times, via the shared mutation formula. -/
def iterLeft : Nat → Int → Int
  | 0, a => a
  | n + 1, a => rotateLeft (iterLeft n a)

theorem applyTransform_angle (st : SysState) : (applyTransform st).angle = st.angle := by
  unfold applyTransform; split <;> rfl

theorem applyTransform_flipX (st : SysState) : (applyTransform st).flipX = st.flipX := by
  unfold applyTransform; split <;> rfl

theorem applyTransform_storage (st : SysState) :
    (applyTransform st).storage = st.storage := by
  unfold applyTransform; split <;> rfl

theorem applyTransform_currentTarget (st : SysState) :
    (applyTransform st).currentTarget = st.currentTarget := by
  unfold applyTransform; split <;> rfl

theorem applyTransform_currentFileId (st : SysState) :
    (applyTransform st).currentFileId = st.currentFileId := by
  unfold applyTransform; split <;> rfl

theorem applyAndSave_angle (st : SysState) : (applyAndSave st).angle = st.angle := by
  simp [applyAndSave, applyTransform_angle]

theorem applyAndSave_flipX (st : SysState) : (applyAndSave st).flipX = st.flipX := by
  simp [applyAndSave, applyTransform_flipX]

theorem applyAndSave_currentTarget (st : SysState) :
    (applyAndSave st).currentTarget = st.currentTarget := by
  simp [applyAndSave, applyTransform_currentTarget]

theorem tmod360_emod (x : Int) : Int.tmod x 360 % 360 = x % 360 := by
  rw [Int.tmod_def]
  generalize x.tdiv 360 = q
  omega

theorem iterRight_emod (n : Nat) (a : Int) :
    iterRight n a % 360 = (a + 90 * n) % 360 := by
  induction n with
  | zero => simp [iterRight]
  | succ n ih =>
    show rotateRight (iterRight n a) % 360 = _
    generalize hy : iterRight n a = y at ih
    rw [rotateRight, Int.tmod_def]
    generalize (y + 90).tdiv 360 = q
    push_cast
    omega

theorem iterLeft_emod (n : Nat) (a : Int) :
    iterLeft n a % 360 = (a + 270 * n) % 360 := by
  induction n with
  | zero => simp [iterLeft]
  | succ n ih =>
    show rotateLeft (iterLeft n a) % 360 = _
    generalize hy : iterLeft n a = y at ih
    rw [rotateLeft, Int.tmod_def]
    generalize (y - 90 + 360).tdiv 360 = q
    push_cast
    omega

/-- C5: rotate-left and rotate-right are mutually inverse on the angle: for
every valid angle in 0/90/180/270 the shared mutation formulas satisfy
rotateLeft (rotateRight a) = a; both the toolbar-click path and the keyboard
path mutate the angle by exactly these formulas; and for every n, applying
rotate-right n times then rotate-left n times returns the angle to its
original value mod 360. -/
theorem rotate_inverse :
    (∀ a : Int, ValidAngle a → rotateLeft (rotateRight a) = a) ∧
    (∀ st : SysState, (toolbarClick (some "right") st).angle = rotateRight st.angle) ∧
    (∀ st : SysState, (toolbarClick (some "left") st).angle = rotateLeft st.angle) ∧
    (∀ st : SysState, (keydownStep false true "R" st).angle = rotateRight st.angle) ∧
    (∀ st : SysState, (keydownStep false true "L" st).angle = rotateLeft st.angle) ∧
    (∀ (n : Nat) (a : Int), iterLeft n (iterRight n a) % 360 = a % 360) := by
  refine ⟨?_, ?_, ?_, ?_, ?_, ?_⟩
  · intro a h
    rcases h with rfl | rfl | rfl | rfl <;> decide
  · intro st
    have h : toolbarClick (some "right") st =
        applyAndSave { st with angle := rotateRight st.angle } := rfl
    rw [h, applyAndSave_angle]
  · intro st
    have h : toolbarClick (some "left") st =
        applyAndSave { st with angle := rotateLeft st.angle } := rfl
    rw [h, applyAndSave_angle]
  · intro st
    have h : keydownStep false true "R" st =
        applyAndSave { st with angle := rotateRight st.angle } := rfl
    rw [h, applyAndSave_angle]
  · intro st
    have h : keydownStep false true "L" st =
        applyAndSave { st with angle := rotateLeft st.angle } := rfl
    rw [h, applyAndSave_angle]
  · intro n a
    have h1 := iterRight_emod n a
    have h2 := iterLeft_emod n (iterRight n a)
    omega

/-- C5 witness: the inverse law evaluated at the concrete valid angle 90. -/
theorem rotate_inverse_witness : rotateLeft (rotateRight 90) = 90 :=
  rotate_inverse.1 90 (by decide)

theorem getKey_setKey_self (s : Storage) (k : String) (v : StoredRecord) :
    getKey (setKey s k v) k = some v := by
  induction s with
  | nil => simp [setKey, getKey]
  | cons p rest ih =>
    obtain ⟨k', v'⟩ := p
    by_cases h : k' = k
    · simp [setKey, getKey, h]
    · simp [setKey, getKey, h, ih]

/-- C7: the State Store contract: save is a silent total no-op when the file
id is absent or the persistence layer rejects the write; an accepted save
associates the id with the record, overwriting any prior value (a second
save wins); load returns none when the file id is absent or no record
exists, and otherwise the last saved record. -/
theorem state_store_contract :
    (∀ (s : Storage) (r : StoredRecord) (ok : Bool), saveState ok s none r = s) ∧
    (∀ (s : Storage) (fid : Option String) (r : StoredRecord),
      saveState false s fid r = s) ∧
    (∀ (s : Storage) (fid : String) (r : StoredRecord),
      loadState (saveState true s (some fid) r) (some fid) = some r) ∧
    (∀ (s : Storage) (fid : String) (r r' : StoredRecord),
      loadState (saveState true (saveState true s (some fid) r) (some fid) r')
        (some fid) = some r') ∧
    (∀ s : Storage, loadState s none = none) ∧
    (∀ fid : String, loadState [] (some fid) = none) := by
  refine ⟨?_, ?_, ?_, ?_, ?_, ?_⟩
  · intro s r ok; rfl
  · intro s fid r; cases fid <;> rfl
  · intro s fid r
    show getKey (setKey s (STORAGE_NS ++ fid) r) (STORAGE_NS ++ fid) = some r
    exact getKey_setKey_self ..
  · intro s fid r r'
    show getKey (setKey _ (STORAGE_NS ++ fid) r') (STORAGE_NS ++ fid) = some r'
    exact getKey_setKey_self ..
  · intro s; rfl
  · intro fid; rfl

/-- A fully visible img element in flow layout, parameterised by id,
rendered box and intrinsic size; used to build concrete test elements. -/
def mkEl (i rw rh nw nh : Nat) : Elem :=
  { id := i
    tag := "IMG"
    rectWidth := rw
    rectHeight := rh
    naturalWidth := nw
    naturalHeight := nh
    videoWidth := 0
    videoHeight := 0
    display := "block"
    visibility := "visible"
    hasOffsetParent := true
    position := "static"
    src := "" }

/-- A fully visible element whose intrinsic dimensions report 0 (as a
still-loading img does) but whose rendered box is 100 by 100. -/
def zeroIntrinsicEl : Elem := mkEl 3 100 100 0 0

/-- C2 counterexample: an element whose intrinsic dimensions report 0 and
whose rendered box exceeds 30 by 30 is ACCEPTED by the filter, because the
JS fallback chain naturalWidth or videoWidth or rect.width substitutes the
rendered size; the claim says it must be rejected. -/
theorem intrinsic_zero_accepted_cex :
    zeroIntrinsicEl.naturalWidth = 0 ∧ zeroIntrinsicEl.naturalHeight = 0 ∧
    zeroIntrinsicEl.videoWidth = 0 ∧ zeroIntrinsicEl.videoHeight = 0 ∧
    30 < zeroIntrinsicEl.rectWidth ∧ 30 < zeroIntrinsicEl.rectHeight ∧
    passesFilter zeroIntrinsicEl = true := by decide

/-- C2 (amended): a candidate is rejected whenever its resolved intrinsic
dimension is below 50, even when the rendered box exceeds 30 by 30; the
resolved intrinsic width is naturalWidth when nonzero, else videoWidth when
nonzero, else falls back to the rendered width (so an element reporting 0
intrinsic size is judged by its rendered size instead); same for heights. -/
theorem filter_rejects_small_intrinsic :
    (∀ el : Elem, effectiveWidth el < 50 ∨ effectiveHeight el < 50 →
      passesFilter el = false) ∧
    (∀ el : Elem, el.naturalWidth ≠ 0 → effectiveWidth el = el.naturalWidth) ∧
    (∀ el : Elem, el.naturalWidth = 0 → el.videoWidth = 0 →
      effectiveWidth el = el.rectWidth) ∧
    (∀ el : Elem, el.naturalHeight ≠ 0 → effectiveHeight el = el.naturalHeight) ∧
    (∀ el : Elem, el.naturalHeight = 0 → el.videoHeight = 0 →
      effectiveHeight el = el.rectHeight) := by
  refine ⟨?_, ?_, ?_, ?_, ?_⟩
  · intro el h
    simp only [passesFilter]
    split_ifs with h1 h2 h3 <;> rfl
  · intro el h; simp [effectiveWidth, h]
  · intro el h1 h2; simp [effectiveWidth, h1, h2]
  · intro el h; simp [effectiveHeight, h]
  · intro el h1 h2; simp [effectiveHeight, h1, h2]

/-- A visible element with a large rendered box but intrinsic width 40. -/
def smallIntrinsicEl : Elem := mkEl 4 100 100 40 200

/-- C2 witness: the amended rejection rule evaluated on a concrete element
with nonzero intrinsic width 40 and rendered box 100 by 100. -/
theorem filter_rejects_small_intrinsic_witness :
    passesFilter smallIntrinsicEl = false :=
  filter_rejects_small_intrinsic.1 smallIntrinsicEl (by decide)

/-- The C3 spec-side selection rule, stated independently of the sort in the
source: the earliest element of maximal rendered area. -/
def firstMax : List Elem → Option Elem
  | [] => none
  | a :: l =>
    match firstMax l with
    | none => some a
    | some b => if area a < area b then some b else some a

theorem insertByArea_ne_nil (a : Elem) (l : List Elem) : insertByArea a l ≠ [] := by
  cases l with
  | nil => simp [insertByArea]
  | cons b t => simp only [insertByArea]; split <;> simp

theorem sortByAreaDesc_eq_nil_iff (l : List Elem) : sortByAreaDesc l = [] ↔ l = [] := by
  cases l with
  | nil => simp [sortByAreaDesc]
  | cons a t => simp [sortByAreaDesc, insertByArea_ne_nil]

theorem firstMax_eq_none_iff (l : List Elem) : firstMax l = none ↔ l = [] := by
  cases l with
  | nil => simp [firstMax]
  | cons a t =>
    simp only [firstMax]
    split
    · simp
    · split <;> simp

theorem head_sortByAreaDesc (l : List Elem) : (sortByAreaDesc l).head? = firstMax l := by
  induction l with
  | nil => rfl
  | cons a t ih =>
    show (insertByArea a (sortByAreaDesc t)).head? = _
    cases hs : sortByAreaDesc t with
    | nil =>
      have ht : t = [] := (sortByAreaDesc_eq_nil_iff t).1 hs
      subst ht
      rfl
    | cons b rest =>
      rw [hs] at ih
      have hb : firstMax t = some b := by simpa using ih.symm
      show (if area b ≤ area a then a :: b :: rest
            else b :: insertByArea a rest).head? = firstMax (a :: t)
      simp only [firstMax, hb]
      by_cases hc : area a < area b
      · rw [if_neg (by omega), if_pos hc]; rfl
      · rw [if_pos (by omega), if_neg hc]; rfl

theorem firstMax_le (l : List Elem) (el : Elem) (h : firstMax l = some el) :
    ∀ x ∈ l, area x ≤ area el := by
  induction l generalizing el with
  | nil => cases h
  | cons a t ih =>
    simp only [firstMax] at h
    cases hb : firstMax t with
    | none =>
      rw [hb] at h
      replace h : some a = some el := h
      injection h with h2
      have h3 := congrArg area h2
      have ht : t = [] := (firstMax_eq_none_iff t).1 hb
      subst ht
      intro x hx
      rcases List.mem_cons.mp hx with rfl | hmem
      · omega
      · cases hmem
    | some b =>
      rw [hb] at h
      replace h : (if area a < area b then some b else some a) = some el := h
      intro x hx
      by_cases hc : area a < area b
      · rw [if_pos hc] at h
        injection h with h2
        have h3 := congrArg area h2
        have hball := ih b hb
        rcases List.mem_cons.mp hx with rfl | hmem
        · omega
        · have h1 := hball x hmem
          omega
      · rw [if_neg hc] at h
        injection h with h2
        have h3 := congrArg area h2
        have hball := ih b hb
        rcases List.mem_cons.mp hx with rfl | hmem
        · omega
        · have h1 := hball x hmem
          omega

theorem firstMax_split (l : List Elem) (el : Elem) (h : firstMax l = some el) :
    ∃ pre post, l = pre ++ el :: post ∧ (∀ x ∈ pre, area x < area el) ∧
      (∀ x ∈ post, area x ≤ area el) := by
  induction l generalizing el with
  | nil => cases h
  | cons a t ih =>
    simp only [firstMax] at h
    cases hb : firstMax t with
    | none =>
      rw [hb] at h
      replace h : some a = some el := h
      injection h with h2
      have ht : t = [] := (firstMax_eq_none_iff t).1 hb
      exact ⟨[], t, by simp [h2], by simp, by simp [ht]⟩
    | some b =>
      rw [hb] at h
      replace h : (if area a < area b then some b else some a) = some el := h
      by_cases hc : area a < area b
      · rw [if_pos hc] at h
        injection h with h2
        have h3 := congrArg area h2
        obtain ⟨pre, post, heq, hpre, hpost⟩ := ih el (h2 ▸ hb)
        refine ⟨a :: pre, post, by simp [heq], ?_, hpost⟩
        intro x hx
        rcases List.mem_cons.mp hx with rfl | hmem
        · omega
        · exact hpre x hmem
      · rw [if_neg hc] at h
        injection h with h2
        have h3 := congrArg area h2
        refine ⟨[], t, by simp [h2], by simp, ?_⟩
        intro x hx
        have h1 := firstMax_le t b hb x hx
        omega

theorem firstMax_mem (l : List Elem) (el : Elem) (h : firstMax l = some el) :
    el ∈ l := by
  obtain ⟨pre, post, heq, -, -⟩ := firstMax_split l el h
  subst heq
  simp

theorem findLargest_eq_firstMax (qs : List (List Elem)) :
    findLargestMediaElement qs = firstMax (firstSurvivors qs) := by
  simp only [findLargestMediaElement]
  cases hs : firstSurvivors qs with
  | nil => rfl
  | cons a t =>
    rw [List.isEmpty_cons]
    exact head_sortByAreaDesc (a :: t)

theorem firstSurvivors_eq_nil_iff (qs : List (List Elem)) :
    firstSurvivors qs = [] ↔ ∀ l ∈ qs, l.filter passesFilter = [] := by
  induction qs with
  | nil => simp [firstSurvivors]
  | cons l rest ih =>
    simp only [firstSurvivors]
    by_cases h : (l.filter passesFilter).isEmpty
    · rw [if_pos h]
      have hl : l.filter passesFilter = [] := List.isEmpty_iff.mp h
      rw [ih]
      constructor
      · intro hall l' hl'
        rcases List.mem_cons.mp hl' with rfl | hmem
        · exact hl
        · exact hall l' hmem
      · intro hall l' hl'
        exact hall l' (List.mem_cons_of_mem _ hl')
    · rw [if_neg h]
      have hl : l.filter passesFilter ≠ [] := by simpa using h
      constructor
      · intro hc; exact absurd hc hl
      · intro hall; exact absurd (hall l (List.mem_cons_self ..)) hl

theorem firstSurvivors_commits (qs : List (List Elem)) (h : firstSurvivors qs ≠ []) :
    ∃ pre l post, qs = pre ++ l :: post ∧
      (∀ l' ∈ pre, l'.filter passesFilter = []) ∧
      l.filter passesFilter ≠ [] ∧
      firstSurvivors qs = l.filter passesFilter := by
  induction qs with
  | nil => simp [firstSurvivors] at h
  | cons l rest ih =>
    by_cases hl : (l.filter passesFilter).isEmpty
    · have h2 : firstSurvivors (l :: rest) = firstSurvivors rest := by
        simp only [firstSurvivors]; rw [if_pos hl]
      rw [h2] at h
      obtain ⟨pre, l1, post, heq, hpre, hne, hfs⟩ := ih h
      refine ⟨l :: pre, l1, post, by simp [heq], ?_, hne, by rw [h2, hfs]⟩
      intro l' hl'
      rcases List.mem_cons.mp hl' with rfl | hmem
      · exact List.isEmpty_iff.mp hl
      · exact hpre l' hmem
    · have h2 : firstSurvivors (l :: rest) = l.filter passesFilter := by
        simp only [firstSurvivors]; rw [if_neg hl]
      exact ⟨[], l, rest, rfl, by simp, by simpa using hl, h2⟩

/-- The first pattern's sole match: invisible to the filter (10 by 10 box). -/
def tinyFirstPatternEl : Elem := mkEl 1 10 10 200 200

/-- A valid candidate that only a later pattern matches. -/
def laterPatternEl : Elem := mkEl 2 100 100 200 200

/-- Query results where the first pattern yields one element that the filter
removes and a later pattern yields a surviving element. -/
def fallbackDom : List (List Elem) := [[tinyFirstPatternEl], [laterPatternEl]]

/-- C1 counterexample: the first selector pattern yields an element, the
filter removes it, and the search nevertheless returns the later pattern's
candidate instead of failing with not found as the claim requires. -/
theorem locator_fallback_cex :
    [tinyFirstPatternEl].filter passesFilter = [] ∧
    findLargestMediaElement fallbackDom = some laterPatternEl := by decide

/-- C1 (amended): the search pass commits to the first pattern with at least
one SURVIVING candidate: a pattern whose raw matches are all removed by the
filter is skipped in favour of later patterns; candidates come only from the
first pattern with survivors; and the search returns not found exactly when
every pattern's matches are all filtered out. -/
theorem locator_shortcircuit (qs : List (List Elem)) :
    (findLargestMediaElement qs = none ↔ ∀ l ∈ qs, l.filter passesFilter = []) ∧
    (∀ el, findLargestMediaElement qs = some el →
      ∃ pre l post, qs = pre ++ l :: post ∧
        (∀ l' ∈ pre, l'.filter passesFilter = []) ∧
        l.filter passesFilter ≠ [] ∧ el ∈ l.filter passesFilter) := by
  constructor
  · rw [findLargest_eq_firstMax, firstMax_eq_none_iff]
    exact firstSurvivors_eq_nil_iff qs
  · intro el h
    rw [findLargest_eq_firstMax] at h
    have hne : firstSurvivors qs ≠ [] := by
      intro hc; rw [hc] at h; cases h
    obtain ⟨pre, l, post, heq, hpre, hlne, hfs⟩ := firstSurvivors_commits qs hne
    have hmem : el ∈ firstSurvivors qs := firstMax_mem _ _ h
    exact ⟨pre, l, post, heq, hpre, hlne, hfs ▸ hmem⟩

/-- C1 witness: the amended failure rule evaluated on query results where
the only pattern's matches are all filtered out. -/
theorem locator_shortcircuit_witness :
    findLargestMediaElement [[tinyFirstPatternEl]] = none :=
  (locator_shortcircuit [[tinyFirstPatternEl]]).1.mpr (by decide)

/-- C3: among the candidates that survive the filter, the selected element
splits the survivor list so that every earlier survivor has strictly smaller
rendered area and every later one has area at most its own: the largest area
wins and exact ties go to the candidate discovered earlier. -/
theorem locator_selects_first_largest (qs : List (List Elem)) (el : Elem)
    (h : findLargestMediaElement qs = some el) :
    ∃ pre post, firstSurvivors qs = pre ++ el :: post ∧
      (∀ x ∈ pre, area x < area el) ∧ (∀ x ∈ post, area x ≤ area el) := by
  rw [findLargest_eq_firstMax] at h
  exact firstMax_split _ _ h

/-- The spec's tie example: a 100 by 100 candidate discovered first. -/
def tieEl1 : Elem := mkEl 10 100 100 100 100

/-- The spec's tie example: a 200 by 50 candidate discovered second. -/
def tieEl2 : Elem := mkEl 11 200 50 200 50

/-- C3 witness: the selection theorem evaluated on the spec's tie example,
two equal-area candidates where the earlier one must win. -/
theorem locator_selects_first_largest_witness :
    (area tieEl1 = area tieEl2 ∧
      findLargestMediaElement [[tieEl1, tieEl2]] = some tieEl1) ∧
    (∃ pre post, firstSurvivors [[tieEl1, tieEl2]] = pre ++ tieEl1 :: post ∧
      (∀ x ∈ pre, area x < area tieEl1) ∧ (∀ x ∈ post, area x ≤ area tieEl1)) :=
  ⟨by decide, locator_selects_first_largest [[tieEl1, tieEl2]] tieEl1 (by decide)⟩

/-- The preview URL of file f1 in the end-to-end scenario. -/
def urlF1 : String := "https://drive.google.com/file/d/f1/view"

/-- The preview URL of file f2 in the end-to-end scenario. -/
def urlF2 : String := "https://drive.google.com/file/d/f2/view"

/-- A rotate-right toolbar click. -/
def rightClick : Ev := Ev.click (some "right")

/-- C4: the end-to-end scenario: starting from the default state on file f1,
three rotate-right clicks take the angle 0 to 90 to 180 to 270, each one
written through to storage; an address change to file f2, which has no
saved record, yields angle 0 and flipX false; a later address change back
to f1 restores angle 270 and flipX false. -/
theorem end_to_end_scenario :
    (run (initialState true) [Ev.start urlF1]).currentFileId = some "f1" ∧
    (run (initialState true) [Ev.start urlF1]).angle = 0 ∧
    (run (initialState true) [Ev.start urlF1]).flipX = false ∧
    (run (initialState true) [Ev.start urlF1, rightClick]).angle = 90 ∧
    loadState (run (initialState true) [Ev.start urlF1, rightClick]).storage
      (some "f1") = some ⟨some 90, some false⟩ ∧
    (run (initialState true) [Ev.start urlF1, rightClick, rightClick]).angle = 180 ∧
    loadState (run (initialState true)
      [Ev.start urlF1, rightClick, rightClick]).storage
      (some "f1") = some ⟨some 180, some false⟩ ∧
    (run (initialState true)
      [Ev.start urlF1, rightClick, rightClick, rightClick]).angle = 270 ∧
    loadState (run (initialState true)
      [Ev.start urlF1, rightClick, rightClick, rightClick]).storage
      (some "f1") = some ⟨some 270, some false⟩ ∧
    (run (initialState true)
      [Ev.start urlF1, rightClick, rightClick, rightClick,
        Ev.nav urlF2]).currentFileId = some "f2" ∧
    (run (initialState true)
      [Ev.start urlF1, rightClick, rightClick, rightClick,
        Ev.nav urlF2]).angle = 0 ∧
    (run (initialState true)
      [Ev.start urlF1, rightClick, rightClick, rightClick,
        Ev.nav urlF2]).flipX = false ∧
    (run (initialState true)
      [Ev.start urlF1, rightClick, rightClick, rightClick, Ev.nav urlF2,
        Ev.nav urlF1]).currentFileId = some "f1" ∧
    (run (initialState true)
      [Ev.start urlF1, rightClick, rightClick, rightClick, Ev.nav urlF2,
        Ev.nav urlF1]).angle = 270 ∧
    (run (initialState true)
      [Ev.start urlF1, rightClick, rightClick, rightClick, Ev.nav urlF2,
        Ev.nav urlF1]).flipX = false := by decide

/-- A storage layer in which every stored angle field is a valid angle. -/
def GoodStorage (s : Storage) : Prop :=
  ∀ p ∈ s, ∀ a : Int, p.2.angle = some a → ValidAngle a

/-- The inductive invariant behind C6: the in-memory angle is valid and so is
every angle the script has persisted. -/
def Inv (st : SysState) : Prop := ValidAngle st.angle ∧ GoodStorage st.storage

theorem validAngle_zero : ValidAngle 0 := Or.inl rfl

theorem rotateRight_valid (a : Int) (h : ValidAngle a) : ValidAngle (rotateRight a) := by
  rcases h with rfl | rfl | rfl | rfl <;> decide

theorem rotateLeft_valid (a : Int) (h : ValidAngle a) : ValidAngle (rotateLeft a) := by
  rcases h with rfl | rfl | rfl | rfl <;> decide

theorem setKey_mem (s : Storage) (k : String) (v : StoredRecord)
    (p : String × StoredRecord) (hp : p ∈ setKey s k v) : p ∈ s ∨ p = (k, v) := by
  induction s with
  | nil => simpa [setKey] using hp
  | cons q rest ih =>
    obtain ⟨k', v'⟩ := q
    by_cases h : k' = k
    · rw [setKey, if_pos h] at hp
      rcases List.mem_cons.mp hp with rfl | hmem
      · right; rfl
      · left; exact List.mem_cons_of_mem _ hmem
    · rw [setKey, if_neg h] at hp
      rcases List.mem_cons.mp hp with rfl | hmem
      · left; exact List.mem_cons_self ..
      · rcases ih hmem with h1 | h1
        · left; exact List.mem_cons_of_mem _ h1
        · right; exact h1

theorem getKey_mem (s : Storage) (k : String) (v : StoredRecord)
    (h : getKey s k = some v) : (k, v) ∈ s := by
  induction s with
  | nil => cases h
  | cons q rest ih =>
    obtain ⟨k', v'⟩ := q
    by_cases hk : k' = k
    · rw [getKey, if_pos hk] at h
      injection h with h2
      exact List.mem_cons.mpr (Or.inl (by rw [hk, h2]))
    · rw [getKey, if_neg hk] at h
      exact List.mem_cons_of_mem _ (ih h)

theorem saveState_good (ok : Bool) (s : Storage) (fid : Option String)
    (r : StoredRecord) (hs : GoodStorage s)
    (hr : ∀ a : Int, r.angle = some a → ValidAngle a) :
    GoodStorage (saveState ok s fid r) := by
  cases fid with
  | none => exact hs
  | some f =>
    cases ok with
    | false => exact hs
    | true =>
      intro p hp a ha
      have hp2 : p ∈ setKey s (STORAGE_NS ++ f) r := hp
      rcases setKey_mem s _ r p hp2 with hmem | heq
      · exact hs p hmem a ha
      · rw [heq] at ha
        exact hr a ha

theorem applyTransform_inv (st : SysState) (h : Inv st) : Inv (applyTransform st) :=
  ⟨by rw [applyTransform_angle]; exact h.1,
   by rw [applyTransform_storage]; exact h.2⟩

theorem applyAndSave_storage (st : SysState) :
    (applyAndSave st).storage =
      saveState st.storeOk st.storage st.currentFileId
        ⟨some st.angle, some st.flipX⟩ := by
  simp only [applyAndSave, applyTransform]
  split <;> rfl

theorem applyAndSave_inv (st : SysState) (h : Inv st) : Inv (applyAndSave st) := by
  refine ⟨by rw [applyAndSave_angle]; exact h.1, ?_⟩
  rw [applyAndSave_storage]
  apply saveState_good _ _ _ _ h.2
  intro a ha
  injection ha with h2
  rw [← h2]
  exact h.1

theorem toolbarClick_inv (act : Option String) (st : SysState) (h : Inv st) :
    Inv (toolbarClick act st) := by
  cases act with
  | none => exact h
  | some a =>
    simp only [toolbarClick]
    apply applyAndSave_inv
    split_ifs <;>
      exact ⟨by solve_by_elim [rotateRight_valid, rotateLeft_valid, h.1,
        validAngle_zero], h.2⟩

theorem keydownStep_inv (ty sh : Bool) (k : String) (st : SysState) (h : Inv st) :
    Inv (keydownStep ty sh k st) := by
  simp only [keydownStep]
  split_ifs <;>
    first
    | exact h
    | exact applyAndSave_inv _ ⟨rotateRight_valid _ h.1, h.2⟩
    | exact applyAndSave_inv _ ⟨rotateLeft_valid _ h.1, h.2⟩
    | exact applyAndSave_inv _ ⟨validAngle_zero, h.2⟩
    | exact applyAndSave_inv _ ⟨h.1, h.2⟩

theorem loaded_angle_valid (s : Storage) (key : String) (hs : GoodStorage s) :
    ValidAngle (((getKey s key).bind (fun r => r.angle)).getD 0) := by
  cases hload : getKey s key with
  | none => simp; decide
  | some r =>
    cases hr : r.angle with
    | none => simp [hr]; decide
    | some a =>
      simp only [Option.some_bind, hr, Option.getD_some]
      exact hs _ (getKey_mem s key r hload) a hr

theorem loadRotationState_inv (st : SysState) (h : Inv st) :
    Inv (loadRotationState st) := by
  cases hf : st.currentFileId with
  | none => simpa [loadRotationState, hf] using h
  | some f =>
    simp only [loadRotationState, hf]
    have hbase : Inv { st with
        angle := ((getKey st.storage (STORAGE_NS ++ f)).bind (fun r => r.angle)).getD 0
        flipX :=
          ((getKey st.storage (STORAGE_NS ++ f)).bind (fun r => r.flipX)).getD false } :=
      ⟨loaded_angle_valid _ _ h.2, h.2⟩
    split
    · exact applyTransform_inv _ hbase
    · exact hbase

theorem ensureToolbar_inv (url : String) (st : SysState) (h : Inv st) :
    Inv (ensureToolbar url st) := by
  simp only [ensureToolbar]
  split
  · exact h
  · exact ⟨h.1, h.2⟩

theorem urlChangeStep_inv (url : String) (st : SysState) (h : Inv st) :
    Inv (urlChangeStep url st) := by
  simp only [urlChangeStep]
  split
  · have h2 := loadRotationState_inv
      { st with currentFileId := some ((getFileIdFromUrl url).getD "general") }
      ⟨h.1, h.2⟩
    exact ⟨h2.1, h2.2⟩
  · exact ⟨h.1, h.2⟩

theorem initOnDrive_inv (url : String) (st : SysState) (h : Inv st) :
    Inv (initOnDrive url st) := by
  simp only [initOnDrive]
  exact loadRotationState_inv _ (ensureToolbar_inv url _ ⟨h.1, h.2⟩)

theorem updateToolbarStatus_angle (msg : String) (st : SysState) :
    (updateToolbarStatus msg st).angle = st.angle := by
  simp only [updateToolbarStatus]; split <;> rfl

theorem updateToolbarStatus_storage (msg : String) (st : SysState) :
    (updateToolbarStatus msg st).storage = st.storage := by
  simp only [updateToolbarStatus]; split <;> rfl

theorem setTarget_angle (el : Option Elem) (st : SysState) :
    (setTarget el st).angle = st.angle := by
  cases el with
  | none => rfl
  | some e => rw [setTarget, applyTransform_angle]

theorem setTarget_storage (el : Option Elem) (st : SysState) :
    (setTarget el st).storage = st.storage := by
  cases el with
  | none => rfl
  | some e => rw [setTarget, applyTransform_storage]

theorem assignTargetStep_angle (dom : List (List Elem)) (st : SysState) :
    ((assignTargetStep dom st).1).angle = st.angle := by
  rcases hfind : findLargestMediaElement dom with _ | e <;>
    simp only [assignTargetStep, hfind] <;> split <;>
    simp [updateToolbarStatus_angle, setTarget_angle]

theorem assignTargetStep_storage (dom : List (List Elem)) (st : SysState) :
    ((assignTargetStep dom st).1).storage = st.storage := by
  rcases hfind : findLargestMediaElement dom with _ | e <;>
    simp only [assignTargetStep, hfind] <;> split <;>
    simp [updateToolbarStatus_storage, setTarget_storage]

theorem step_inv (st : SysState) (e : Ev) (h : Inv st) : Inv (step st e) := by
  cases e with
  | click a => exact toolbarClick_inv a st h
  | key t s k => exact keydownStep_inv t s k st h
  | nav url => exact urlChangeStep_inv url st h
  | start url => exact initOnDrive_inv url st h
  | locate dom =>
    exact ⟨by rw [step, assignTargetStep_angle]; exact h.1,
      by rw [step, assignTargetStep_storage]; exact h.2⟩
  | teardown => exact ⟨h.1, h.2⟩

theorem run_inv (evs : List Ev) (st : SysState) (h : Inv st) : Inv (run st evs) := by
  induction evs generalizing st with
  | nil => exact h
  | cons e rest ih => exact ih (step st e) (step_inv st e h)

/-- C6: starting from the initial state (angle 0, empty storage), after any
sequence of operations — rotate-left, rotate-right, flip, reset via click or
keyboard, URL changes and the persisted-state loads they trigger, locate
attempts and teardown — the angle is always one of 0, 90, 180 or 270,
whether or not the persistence layer accepts writes. -/
theorem angle_always_valid (ok : Bool) (evs : List Ev) :
    ValidAngle (run (initialState ok) evs).angle := by
  have h0 : Inv (initialState ok) := by
    refine ⟨Or.inl rfl, ?_⟩
    intro p hp a ha
    cases hp
  exact (run_inv evs (initialState ok) h0).1

theorem updateToolbarStatus_initAttempts (msg : String) (st : SysState) :
    (updateToolbarStatus msg st).initAttempts = st.initAttempts := by
  simp only [updateToolbarStatus]; split <;> rfl

theorem updateToolbarStatus_currentTarget (msg : String) (st : SysState) :
    (updateToolbarStatus msg st).currentTarget = st.currentTarget := by
  simp only [updateToolbarStatus]; split <;> rfl

theorem updateToolbarStatus_appliedTransform (msg : String) (st : SysState) :
    (updateToolbarStatus msg st).appliedTransform = st.appliedTransform := by
  simp only [updateToolbarStatus]; split <;> rfl

theorem updateToolbarStatus_status (msg : String) (st : SysState)
    (h : st.toolbar = true) : (updateToolbarStatus msg st).status = msg := by
  simp [updateToolbarStatus, h]

/-- A toolbar-bearing state in which two locate attempts have already failed. -/
def failedTwiceState : SysState :=
  run { initialState true with toolbar := true } [Ev.locate [], Ev.locate []]

/-- C8 counterexample: on the third consecutive failed locate attempt — at
which point 3 attempts have occurred — the handler still schedules a timer
retry (setTimeout) and shows the searching status rather than the terminal
message; only the fourth consecutive failure shows the terminal message and
stops scheduling. -/
theorem retry_after_three_cex :
    failedTwiceState.initAttempts = 2 ∧
    (assignTargetStep [] failedTwiceState).1.initAttempts = 3 ∧
    (assignTargetStep [] failedTwiceState).2 = true ∧
    (assignTargetStep [] failedTwiceState).1.status = "Searching for media... (3)" ∧
    (assignTargetStep [] (assignTargetStep [] failedTwiceState).1).2 = false ∧
    (assignTargetStep [] (assignTargetStep [] failedTwiceState).1).1.status =
      "No media found - click on image/video" := by decide

/-- C8 (amended): after a failed locate attempt a timer retry is scheduled
if and only if at most 3 attempts have occurred (counting the failed one),
so the terminal not-found status and the end of timer retries arrive on the
fourth and later consecutive failed attempts, not after the third; locate
remains triggerable by mutation/resize events regardless of the count. -/
theorem retry_schedule (st : SysState) (dom : List (List Elem))
    (hfind : findLargestMediaElement dom = none) :
    ((assignTargetStep dom st).2 = true ↔ st.initAttempts + 1 ≤ 3) ∧
    ((assignTargetStep dom st).1).initAttempts = st.initAttempts + 1 ∧
    (st.toolbar = true → st.initAttempts + 1 ≤ 3 →
      ((assignTargetStep dom st).1).status =
        "Searching for media... (" ++ toString (st.initAttempts + 1) ++ ")") ∧
    (st.toolbar = true → 3 < st.initAttempts + 1 →
      ((assignTargetStep dom st).1).status =
        "No media found - click on image/video" ∧
      (assignTargetStep dom st).2 = false) ∧
    (∀ s : SysState, step s (Ev.locate dom) = (assignTargetStep dom s).1) := by
  refine ⟨?_, ?_, ?_, ?_, fun s => rfl⟩
  · simp only [assignTargetStep, hfind]
    by_cases hc : st.initAttempts + 1 ≤ 3
    · simp [hc]
    · simp [hc]
  · simp only [assignTargetStep, hfind]
    split <;> simp [updateToolbarStatus_initAttempts]
  · intro htb hc
    simp only [assignTargetStep, hfind]
    split
    · exact updateToolbarStatus_status _ _ htb
    · rename_i hc2
      exact absurd hc hc2
  · intro htb hc
    simp only [assignTargetStep, hfind]
    split
    · rename_i hc2
      omega
    · exact ⟨updateToolbarStatus_status _ _ htb, rfl⟩

/-- A toolbar-bearing state in which five locate attempts have occurred. -/
def exhaustedState : SysState :=
  { initialState true with toolbar := true, initAttempts := 5 }

/-- C8 witness: the amended schedule rule evaluated on a failed attempt in a
state that already saw five attempts: terminal status, no retry. -/
theorem retry_schedule_witness :
    (assignTargetStep [] exhaustedState).1.status =
      "No media found - click on image/video" ∧
    (assignTargetStep [] exhaustedState).2 = false :=
  (retry_schedule exhaustedState [] rfl).2.2.2.1 rfl (by decide)

theorem setTarget_some_currentTarget (e : Elem) (st : SysState) :
    (setTarget (some e) st).currentTarget = some e := by
  simp only [setTarget]
  rw [applyTransform_currentTarget]

theorem toolbarClick_currentTarget (act : Option String) (st : SysState) :
    (toolbarClick act st).currentTarget = st.currentTarget := by
  cases act with
  | none => rfl
  | some a =>
    simp only [toolbarClick]
    rw [applyAndSave_currentTarget]
    split_ifs <;> rfl

theorem keydownStep_currentTarget (ty sh : Bool) (k : String) (st : SysState) :
    (keydownStep ty sh k st).currentTarget = st.currentTarget := by
  simp only [keydownStep]
  split_ifs <;> first | rfl | rw [applyAndSave_currentTarget]

theorem loadRotationState_currentTarget (st : SysState) :
    (loadRotationState st).currentTarget = st.currentTarget := by
  cases hf : st.currentFileId with
  | none => simp [loadRotationState, hf]
  | some f =>
    simp only [loadRotationState, hf]
    split
    · rw [applyTransform_currentTarget]
    · rfl

theorem ensureToolbar_currentTarget (url : String) (st : SysState) :
    (ensureToolbar url st).currentTarget = st.currentTarget := by
  simp only [ensureToolbar]; split <;> rfl

theorem urlChangeStep_currentTarget (url : String) (st : SysState) :
    (urlChangeStep url st).currentTarget = st.currentTarget := by
  simp only [urlChangeStep]
  split
  · rw [loadRotationState_currentTarget]
  · rfl

theorem initOnDrive_currentTarget (url : String) (st : SysState) :
    (initOnDrive url st).currentTarget = st.currentTarget := by
  simp only [initOnDrive]
  rw [loadRotationState_currentTarget, ensureToolbar_currentTarget]

theorem assignTargetStep_none_preserves (dom : List (List Elem)) (st : SysState)
    (hfind : findLargestMediaElement dom = none) :
    ((assignTargetStep dom st).1).currentTarget = st.currentTarget ∧
    ((assignTargetStep dom st).1).appliedTransform = st.appliedTransform := by
  simp only [assignTargetStep, hfind]
  split <;>
    exact ⟨by rw [updateToolbarStatus_currentTarget],
      by rw [updateToolbarStatus_appliedTransform]⟩

theorem assignTargetStep_target_ne_none (dom : List (List Elem)) (st : SysState)
    (t : Elem) (h : st.currentTarget = some t) :
    ((assignTargetStep dom st).1).currentTarget ≠ none := by
  rcases hfind : findLargestMediaElement dom with _ | e
  · rw [(assignTargetStep_none_preserves dom st hfind).1, h]
    simp
  · simp only [assignTargetStep, hfind]
    split
    · rw [updateToolbarStatus_currentTarget, setTarget_some_currentTarget]
      simp
    · show st.currentTarget ≠ none
      rw [h]
      simp

/-- C9: a set media target is never cleared by a failed or empty locate
result: setTarget with a none argument returns the state unchanged; a locate
pass that finds nothing leaves the current target and its applied transform
untouched; teardown sets the target to none; and no event other than
teardown ever takes the target from some element back to none. -/
theorem target_never_cleared :
    (∀ st : SysState, setTarget none st = st) ∧
    (∀ (st : SysState) (dom : List (List Elem)),
      findLargestMediaElement dom = none →
        ((assignTargetStep dom st).1).currentTarget = st.currentTarget ∧
        ((assignTargetStep dom st).1).appliedTransform = st.appliedTransform) ∧
    (∀ st : SysState, (teardown st).currentTarget = none) ∧
    (∀ (st : SysState) (e : Ev) (t : Elem), st.currentTarget = some t →
      e ≠ Ev.teardown → (step st e).currentTarget ≠ none) := by
  refine ⟨fun st => rfl, fun st dom h => assignTargetStep_none_preserves dom st h,
    fun st => rfl, ?_⟩
  intro st e t h he
  cases e with
  | click a =>
    show (toolbarClick a st).currentTarget ≠ none
    rw [toolbarClick_currentTarget, h]
    simp
  | key ty sh k =>
    show (keydownStep ty sh k st).currentTarget ≠ none
    rw [keydownStep_currentTarget, h]
    simp
  | nav url =>
    show (urlChangeStep url st).currentTarget ≠ none
    rw [urlChangeStep_currentTarget, h]
    simp
  | start url =>
    show (initOnDrive url st).currentTarget ≠ none
    rw [initOnDrive_currentTarget, h]
    simp
  | locate dom => exact assignTargetStep_target_ne_none dom st t h
  | teardown => exact absurd rfl he

/-- A concrete element held as the current target. -/
def heldTargetEl : Elem := mkEl 7 100 100 100 100

/-- A state that already holds a media target. -/
def heldTargetState : SysState :=
  { initialState true with currentTarget := some heldTargetEl }

/-- C9 witness: the preservation rules evaluated on a concrete state holding
a target, with an empty locate result and a buttonless click event. -/
theorem target_never_cleared_witness :
    setTarget none heldTargetState = heldTargetState ∧
    (assignTargetStep [] heldTargetState).1.currentTarget = some heldTargetEl ∧
    (step heldTargetState (Ev.click none)).currentTarget ≠ none := by
  refine ⟨target_never_cleared.1 heldTargetState, ?_, ?_⟩
  · rw [(target_never_cleared.2.1 heldTargetState [] rfl).1]
    rfl
  · exact target_never_cleared.2.2.2 heldTargetState (Ev.click none) heldTargetEl rfl
      (by decide)

theorem loadRotationState_fields (st : SysState) (f : String)
    (hcf : st.currentFileId = some f) :
    (loadRotationState st).angle =
      ((loadState st.storage (some f)).bind (fun r => r.angle)).getD 0 ∧
    (loadRotationState st).flipX =
      ((loadState st.storage (some f)).bind (fun r => r.flipX)).getD false := by
  simp only [loadRotationState, hcf]
  constructor
  · split
    · rw [applyTransform_angle]
    · rfl
  · split
    · rw [applyTransform_flipX]
    · rfl

/-- C10: loading a persisted record copies each stored field verbatim with
no range validation, defaulting each field independently when it is absent
(a record with only an angle yields flipX false and a record with only a
flip flag yields angle 0); a missing record yields the defaults 0 and
false; and when no file context is set the load returns early, leaving the
whole state — in particular the in-memory angle and flipX — unchanged. -/
theorem load_verbatim :
    (∀ st : SysState, st.currentFileId = none → loadRotationState st = st) ∧
    (∀ (st : SysState) (f : String) (r : StoredRecord),
      st.currentFileId = some f → loadState st.storage (some f) = some r →
        (loadRotationState st).angle = r.angle.getD 0 ∧
        (loadRotationState st).flipX = r.flipX.getD false) ∧
    (∀ (st : SysState) (f : String),
      st.currentFileId = some f → loadState st.storage (some f) = none →
        (loadRotationState st).angle = 0 ∧ (loadRotationState st).flipX = false) := by
  refine ⟨?_, ?_, ?_⟩
  · intro st h
    simp [loadRotationState, h]
  · intro st f r hcf hload
    have hf := loadRotationState_fields st f hcf
    rw [hf.1, hf.2, hload]
    exact ⟨rfl, rfl⟩
  · intro st f hcf hload
    have hf := loadRotationState_fields st f hcf
    rw [hf.1, hf.2, hload]
    exact ⟨rfl, rfl⟩

/-- A state whose file context has a stored record with angle 45 (outside
the valid set) and no flip field. -/
def oddRecordState : SysState :=
  { initialState true with
    currentFileId := some "x"
    storage := [(STORAGE_NS ++ "x", ⟨some 45, none⟩)] }

/-- C10 witness: the verbatim-copy rule evaluated on a record holding only
an out-of-range angle of 45: the angle is copied unvalidated and flipX
defaults to false. -/
theorem load_verbatim_witness :
    (loadRotationState oddRecordState).angle = 45 ∧
    (loadRotationState oddRecordState).flipX = false := by
  have h := load_verbatim.2.1 oddRecordState "x" ⟨some 45, none⟩ rfl (by decide)
  simpa using h

end GdrRotator
